import Mathlib

/-!
# Verification of the strang job-orchestration layer

Shallow embedding of `backend/utils/job_manager.py` (classes
`ConnectionManager` and `JobManager`), of the relevant models from
`backend/models.py`, and of the HeyGen progress callback from
`backend/main.py`.

Modelling conventions:
* Python dicts become association lists `List (κ × α)` with first-match
  lookup; `d[k] = v` becomes `aupsert` (in-place overwrite of the first
  binding, append if absent), `del d[k]` becomes `aremove`.
* WebSocket handles become abstract connection identifiers (`Conn := ℕ`);
  `await connection.send_json(message)` either succeeds or raises, which we
  model by a transport oracle `sendOk : Conn → Bool`.
* `asyncio.create_task(broadcast…)` is modelled by returning the scheduled
  broadcast payload alongside the new state instead of storing a task.
* A Python function that cannot raise is a total Lean function; a pipeline
  that may raise is an `Except String …` value (the string is `str(e)`).
* Python `float` fields (`duration`) are carried opaquely as `Option ℚ`;
  the code never computes with them.
-/

set_option autoImplicit false

/-- `JobStatus` enum from `backend/models.py`. -/
inductive JobStatus where
  | queued
  | processing
  | scripting
  | rendering
  | completed
  | failed
deriving DecidableEq

/-- The `.value` string of each `JobStatus` member (it is a `str` enum). -/
def JobStatus.value : JobStatus → String
  | .queued => "queued"
  | .processing => "processing"
  | .scripting => "scripting"
  | .rendering => "rendering"
  | .completed => "completed"
  | .failed => "failed"

/-- `JobProgress` model from `backend/models.py`. The Pydantic field
declaration for `progress_percent` is `Field(0, ge=0, le=100)`; the model
does not set `validate_assignment`, so attribute assignment after
construction is NOT validated (relevant to claim C9). -/
structure JobProgress where
  job_id : String
  status : JobStatus
  progress_percent : Int
  current_step : String := ""
  message : String := ""
  error : Option String := none
deriving DecidableEq

/-- `VideoResult` model from `backend/models.py`. -/
structure VideoResult where
  job_id : String
  status : JobStatus
  video_url : Option String := none
  thumbnail_url : Option String := none
  duration : Option ℚ := none
  script : Option String := none
  error : Option String := none
deriving DecidableEq

/-! ## Association-list primitives standing in for Python dicts -/

/-- First-match lookup, `d.get(k)` / `d[k]`. -/
def alookup {κ α : Type} [DecidableEq κ] : List (κ × α) → κ → Option α
  | [], _ => none
  | (k', v) :: t, k => if k' = k then some v else alookup t k

/-- `d[k] = v`: overwrite the first binding of `k` in place, append a new
binding if `k` is absent. -/
def aupsert {κ α : Type} [DecidableEq κ] : List (κ × α) → κ → α → List (κ × α)
  | [], k, v => [(k, v)]
  | (k', v') :: t, k, v =>
      if k' = k then (k, v) :: t else (k', v') :: aupsert t k v

/-- `del d[k]`: drop every binding of `k` (there is at most one in the
states the code builds). -/
def aremove {κ α : Type} [DecidableEq κ] : List (κ × α) → κ → List (κ × α)
  | [], _ => []
  | (k', v) :: t, k => if k' = k then aremove t k else (k', v) :: aremove t k

/-- The keys of an association list, `d.keys()`. -/
def akeys {κ α : Type} (l : List (κ × α)) : List κ := l.map Prod.fst

/-! ## ConnectionManager -/

/-- Abstract WebSocket handle. -/
abbrev Conn := ℕ

/-- The JSON payloads `broadcast_to_job` is called with: the progress dict
built in `update_progress` and the terminal dict built in `set_result`
(`"type"` is `"complete"` when there is no truthy error, `"error"`
otherwise). Status travels as its `.value` string, as in the source dicts. -/
inductive WsMessage where
  | progress (job_id : String) (status : String) (progress_percent : Int)
      (current_step : String) (message : String)
  | terminal (type_ : String) (job_id : String) (status : String)
      (video_url : Option String) (thumbnail_url : Option String)
      (duration : Option ℚ) (script : Option String) (error : Option String)
deriving DecidableEq

/-- `ConnectionManager` state: `active_connections` maps a job id to its
set of watching websockets (modelled as a duplicate-free list),
`connection_jobs` maps a websocket back to its job id. -/
structure ConnectionManager where
  active_connections : List (String × List Conn)
  connection_jobs : List (Conn × String)
deriving DecidableEq

/-- `ConnectionManager.connect` (the `await websocket.accept()` handshake is
outside the state): create the subscriber set if absent, add the websocket,
record the reverse mapping. -/
def ConnectionManager.connect (cm : ConnectionManager) (websocket : Conn)
    (job_id : String) : ConnectionManager :=
  let existing := (alookup cm.active_connections job_id).getD []
  let s := if websocket ∈ existing then existing else existing ++ [websocket]
  { active_connections := aupsert cm.active_connections job_id s
    connection_jobs := aupsert cm.connection_jobs websocket job_id }

/-- `ConnectionManager.disconnect`: if the websocket is known, discard it
from its job's subscriber set, delete the set when it becomes empty, and
drop the reverse mapping. Unknown websockets are a no-op. -/
def ConnectionManager.disconnect (cm : ConnectionManager) (websocket : Conn) :
    ConnectionManager :=
  match alookup cm.connection_jobs websocket with
  | none => cm
  | some job_id =>
      let ac :=
        match alookup cm.active_connections job_id with
        | none => cm.active_connections
        | some s =>
            let s' := s.filter (fun c => c ≠ websocket)
            if s' = [] then aremove cm.active_connections job_id
            else aupsert cm.active_connections job_id s'
      { active_connections := ac
        connection_jobs := aremove cm.connection_jobs websocket }

/-- `ConnectionManager.broadcast_to_job`: no subscriber set means an
immediate return. Otherwise every subscriber gets one `send_json` attempt;
the attempts whose transport raised are collected and disconnected after
the loop. Returns the new state and the list of websockets that received
the message. -/
def ConnectionManager.broadcast_to_job (cm : ConnectionManager)
    (job_id : String) (_message : WsMessage) (sendOk : Conn → Bool) :
    ConnectionManager × List Conn :=
  match alookup cm.active_connections job_id with
  | none => (cm, [])
  | some conns =>
      let delivered := conns.filter (fun c => sendOk c)
      let disconnected := conns.filter (fun c => !sendOk c)
      (disconnected.foldl ConnectionManager.disconnect cm, delivered)

/-! ## JobManager -/

/-- Python truthiness of the `error` argument (`Optional[str]`): `None` and
`""` are falsy, every other string is truthy. `set_result` branches on
`not error`. -/
def errTruthy : Option String → Bool
  | none => false
  | some s => s ≠ ""

/-- `JobManager` state. The `tasks` dict only stores `asyncio.Task` handles
and is never read back by the orchestration logic, so it is omitted;
scheduled broadcasts are returned by each operation instead. -/
structure JobManager where
  jobs : List (String × JobProgress)
  results : List (String × VideoResult)
  connection_manager : ConnectionManager
deriving DecidableEq

/-- The empty manager built by `JobManager.__init__`. -/
def JobManager.init : JobManager :=
  { jobs := [], results := [], connection_manager := ⟨[], []⟩ }

/-- `JobManager.create_job`: the fresh `uuid.uuid4()` string is passed in
as `job_id` (the Python method returns it); a `JobProgress` record is
inserted with status `queued`, percent `0` and no error. -/
def JobManager.create_job (jm : JobManager) (job_id : String) : JobManager :=
  { jm with
    jobs := aupsert jm.jobs job_id
      { job_id := job_id
        status := .queued
        progress_percent := 0
        current_step := "queued"
        message := "Job created, waiting to start..."
        error := none } }

/-- `JobManager.get_job_progress`: `self.jobs.get(job_id)`. -/
def JobManager.get_job_progress (jm : JobManager) (job_id : String) :
    Option JobProgress :=
  alookup jm.jobs job_id

/-- `JobManager.get_job_result`: `self.results.get(job_id)`. -/
def JobManager.get_job_result (jm : JobManager) (job_id : String) :
    Option VideoResult :=
  alookup jm.results job_id

/-- `JobManager.update_progress`: if the job exists, overwrite the mutable
fields of its `JobProgress` and schedule a `"progress"` broadcast; if the
job is unknown, do nothing (and schedule nothing). The scheduled broadcast
(target job and payload) is the second component. -/
def JobManager.update_progress (jm : JobManager) (job_id : String)
    (status : JobStatus) (progress_percent : Int) (current_step : String)
    (message : String) : JobManager × Option (String × WsMessage) :=
  match alookup jm.jobs job_id with
  | none => (jm, none)
  | some rec =>
      ({ jm with
          jobs := aupsert jm.jobs job_id
            { rec with
                status := status
                progress_percent := progress_percent
                current_step := current_step
                message := message } },
       some (job_id,
         .progress job_id status.value progress_percent current_step message))

/-- `JobManager.set_result`: terminal status is `completed` when `not error`
(i.e. `error` is `None` or `""`), else `failed`. The `VideoResult` is
written unconditionally; if the job has a `JobProgress` record its status
is set to the terminal status, its percent to `100 if not error else 0`,
and — only when `error` is truthy — its error field to `error`. A terminal
broadcast (`"complete"` or `"error"`) is always scheduled. -/
def JobManager.set_result (jm : JobManager) (job_id : String)
    (video_url : Option String := none) (thumbnail_url : Option String := none)
    (duration : Option ℚ := none) (script : Option String := none)
    (error : Option String := none) : JobManager × (String × WsMessage) :=
  let status : JobStatus := if errTruthy error then .failed else .completed
  let jobs' :=
    match alookup jm.jobs job_id with
    | none => jm.jobs
    | some rec =>
        aupsert jm.jobs job_id
          { rec with
              status := status
              progress_percent := if errTruthy error then 0 else 100
              error := if errTruthy error then error else rec.error }
  ({ jm with
      jobs := jobs'
      results := aupsert jm.results job_id
        { job_id := job_id
          status := status
          video_url := video_url
          thumbnail_url := thumbnail_url
          duration := duration
          script := script
          error := error } },
   (job_id,
     .terminal (if errTruthy error then "error" else "complete") job_id
       status.value video_url thumbnail_url duration script error))

/-- The mapping of success fields a pipeline function returns (unpacked as
`set_result(job_id, **result)` in `run_job`). -/
structure SuccessFields where
  video_url : Option String := none
  thumbnail_url : Option String := none
  duration : Option ℚ := none
  script : Option String := none
  error : Option String := none
deriving DecidableEq

/-- `JobManager.run_job`, the supervising wrapper. The awaited pipeline call
either returns success fields or raises with message `e` (`Except.error e`);
the `try`/`except` of the source is the `match`, so `run_job` is total: no
exception escapes it. On success `set_result(job_id, **result)`; on failure
`set_result(job_id, error=f"Job failed: {str(e)}")` followed by
`update_progress(job_id, FAILED, 0, "failed", error_msg)`. Returns the
final state and the broadcasts scheduled along the way, in order. -/
def JobManager.run_job (jm : JobManager) (job_id : String)
    (outcome : Except String SuccessFields) :
    JobManager × List (String × WsMessage) :=
  let p1 := jm.update_progress job_id .processing 5 "starting"
    "Starting video generation..."
  match outcome with
  | .ok r =>
      let p2 := p1.1.set_result job_id r.video_url r.thumbnail_url r.duration
        r.script r.error
      (p2.1, p1.2.toList ++ [p2.2])
  | .error e =>
      let error_msg := "Job failed: " ++ e
      let p2 := p1.1.set_result job_id none none none none (some error_msg)
      let p3 := p2.1.update_progress job_id .failed 0 "failed" error_msg
      (p3.1, p1.2.toList ++ [p2.2] ++ p3.2.toList)

/-! ## The HeyGen render-stage progress callback (`backend/main.py`) -/

/-- The percent remapping `35 + int(percent * 0.6)` of
`heygen_progress_callback`. The source multiplies by the IEEE-754 double
nearest `0.6` and truncates with `int(…)`; this embedding uses the exact
value `percent * 6 / 10` (floor division on ℕ). At the inputs the claims
exercise (0, 50 and 100) the double products round to exactly `0.0`,
`30.0` and `60.0`, so truncation agrees with the exact arithmetic there. -/
def heygen_mapped_percent (percent : ℕ) : ℕ :=
  35 + percent * 6 / 10

/-- `heygen_progress_callback(percent, message, result)` from
`backend/main.py`: remaps the HeyGen-internal percent into the [35,95]
band and forwards it through `update_progress` with status `RENDERING`
and step `"rendering"` (the third callback argument is unused). -/
def heygen_progress_callback (jm : JobManager) (job_id : String)
    (percent : ℕ) (message : String) :
    JobManager × Option (String × WsMessage) :=
  jm.update_progress job_id .rendering (heygen_mapped_percent percent)
    "rendering" message

/-! ## Basic association-list lemmas -/

theorem alookup_aupsert_self {κ α : Type} [DecidableEq κ]
    (l : List (κ × α)) (k : κ) (v : α) : alookup (aupsert l k v) k = some v := by
  induction l with
  | nil => simp [aupsert, alookup]
  | cons p t ih =>
      by_cases h : p.1 = k
      · simp [aupsert, h, alookup]
      · simpa [aupsert, h, alookup] using ih

theorem alookup_aupsert_ne {κ α : Type} [DecidableEq κ]
    (l : List (κ × α)) (k k' : κ) (v : α) (h : k' ≠ k) :
    alookup (aupsert l k v) k' = alookup l k' := by
  have h2 : k ≠ k' := Ne.symm h
  induction l with
  | nil => simp [aupsert, alookup, h2]
  | cons p t ih =>
      by_cases hp : p.1 = k
      · simp [aupsert, hp, alookup, h2]
      · simp [aupsert, hp, alookup, ih]

theorem alookup_eq_none {κ α : Type} [DecidableEq κ]
    (l : List (κ × α)) (k : κ) : alookup l k = none ↔ k ∉ akeys l := by
  induction l with
  | nil => simp [alookup, akeys]
  | cons p t ih =>
      by_cases hp : p.1 = k
      · simp [alookup, hp, akeys]
      · have h2 : k ≠ p.1 := fun h => hp h.symm
        simp [alookup, hp, akeys, ih, h2]

theorem alookup_mem {κ α : Type} [DecidableEq κ]
    (l : List (κ × α)) (k : κ) (v : α) (h : alookup l k = some v) :
    (k, v) ∈ l := by
  induction l with
  | nil => simp [alookup] at h
  | cons p t ih =>
      obtain ⟨a, b⟩ := p
      by_cases hp : a = k
      · simp [alookup, hp] at h
        simp [hp, h]
      · simp [alookup, hp] at h
        exact List.mem_cons_of_mem _ (ih h)

theorem mem_aupsert {κ α : Type} [DecidableEq κ]
    (l : List (κ × α)) (k : κ) (v : α) (p : κ × α) (h : p ∈ aupsert l k v) :
    p = (k, v) ∨ p ∈ l := by
  induction l with
  | nil => simpa [aupsert] using h
  | cons q t ih =>
      by_cases hq : q.1 = k
      · simp [aupsert, hq] at h
        rcases h with h | h
        · exact Or.inl h
        · exact Or.inr (List.mem_cons_of_mem _ h)
      · simp [aupsert, hq] at h
        rcases h with h | h
        · exact Or.inr (by simp [h])
        · rcases ih h with h' | h'
          · exact Or.inl h'
          · exact Or.inr (List.mem_cons_of_mem _ h')

theorem akeys_aupsert_of_mem {κ α : Type} [DecidableEq κ]
    (l : List (κ × α)) (k : κ) (v : α) (h : k ∈ akeys l) :
    akeys (aupsert l k v) = akeys l := by
  induction l with
  | nil => simp [akeys] at h
  | cons p t ih =>
      by_cases hp : p.1 = k
      · simp [aupsert, hp, akeys]
      · have hmem : k = p.1 ∨ k ∈ akeys t := by simpa [akeys] using h
        have hk : k ∈ akeys t := by
          rcases hmem with h' | h'
          · exact absurd h'.symm hp
          · exact h'
        have h2 : akeys (aupsert (p :: t) k v) = p.1 :: akeys (aupsert t k v) := by
          cases p
          simp [aupsert, hp, akeys]
        rw [h2, ih hk]
        simp [akeys]

theorem aremove_sublist {κ α : Type} [DecidableEq κ]
    (l : List (κ × α)) (k : κ) : List.Sublist (aremove l k) l := by
  induction l with
  | nil => simp [aremove]
  | cons p t ih =>
      obtain ⟨a, b⟩ := p
      by_cases hp : a = k
      · simpa [aremove, hp] using List.Sublist.cons (a, b) ih
      · simpa [aremove, hp] using List.Sublist.cons₂ (a, b) ih

theorem alookup_aremove_self {κ α : Type} [DecidableEq κ]
    (l : List (κ × α)) (k : κ) : alookup (aremove l k) k = none := by
  induction l with
  | nil => simp [aremove, alookup]
  | cons p t ih =>
      obtain ⟨a, b⟩ := p
      by_cases hp : a = k
      · simpa [aremove, hp, alookup] using ih
      · simpa [aremove, hp, alookup, hp] using ih

theorem alookup_aremove_ne {κ α : Type} [DecidableEq κ]
    (l : List (κ × α)) (k k' : κ) (h : k' ≠ k) :
    alookup (aremove l k) k' = alookup l k' := by
  induction l with
  | nil => simp [aremove, alookup]
  | cons p t ih =>
      obtain ⟨a, b⟩ := p
      by_cases hp : a = k
      · have h2 : k ≠ k' := Ne.symm h
        simpa [aremove, hp, alookup, h2] using ih
      · by_cases hp' : a = k'
        · simp [aremove, hp, alookup, hp', h]
        · simpa [aremove, hp, alookup, hp'] using ih

theorem mem_aremove {κ α : Type} [DecidableEq κ]
    (l : List (κ × α)) (k : κ) (p : κ × α) (h : p ∈ aremove l k) : p ∈ l :=
  (aremove_sublist l k).mem h

/-- `update_progress` never touches the result store. -/
theorem update_progress_results (jm : JobManager) (job_id : String)
    (status : JobStatus) (pct : Int) (step msg : String) :
    (jm.update_progress job_id status pct step msg).1.results = jm.results := by
  unfold JobManager.update_progress
  cases alookup jm.jobs job_id <;> simp

/-- `update_progress` never touches the connection manager. -/
theorem update_progress_cm (jm : JobManager) (job_id : String)
    (status : JobStatus) (pct : Int) (step msg : String) :
    (jm.update_progress job_id status pct step msg).1.connection_manager =
      jm.connection_manager := by
  unfold JobManager.update_progress
  cases alookup jm.jobs job_id <;> simp

/-- C2: a job id just minted by `create_job` has a progress record with that
id, status `queued`, percent `0` and no error. -/
theorem create_job_progress (jm : JobManager) (job_id : String) :
    (jm.create_job job_id).get_job_progress job_id =
      some { job_id := job_id
             status := .queued
             progress_percent := 0
             current_step := "queued"
             message := "Job created, waiting to start..."
             error := none } := by
  simp [JobManager.create_job, JobManager.get_job_progress,
    alookup_aupsert_self]

/-! ## Claim C1: run_job supervises pipeline failures -/

/-- C1: for every job whose pipeline raises (with message `e`), the
supervising wrapper `run_job` catches it — `run_job` is a total function,
so no exception escapes — and afterwards `get_job_result` returns a result
record with terminal status `failed` and the non-empty error string
`"Job failed: " ++ e` derived from the exception message. -/
theorem run_job_catches_failure (jm : JobManager) (job_id e : String) :
    (jm.run_job job_id (Except.error e)).1.get_job_result job_id =
      some { job_id := job_id
             status := .failed
             video_url := none
             thumbnail_url := none
             duration := none
             script := none
             error := some ("Job failed: " ++ e) } ∧
    ("Job failed: " ++ e) ≠ "" := by
  have hne : ("Job failed: " ++ e) ≠ "" := by
    intro h
    have h2 := congrArg String.length h
    simp [String.length_append] at h2
    exact absurd h2.1 (by decide)
  have hT : errTruthy (some ("Job failed: " ++ e)) = true := by
    simp [errTruthy, hne]
  refine ⟨?_, hne⟩
  simp only [JobManager.run_job, JobManager.get_job_result]
  rw [update_progress_results]
  simp [JobManager.set_result, update_progress_results, hT,
    alookup_aupsert_self]

/-! ## Claim C7: unknown job identifiers -/

/-- C7: for a job identifier that was never created (present in neither the
job store nor the result store), `get_job_progress` and `get_job_result`
both return `none`, and `update_progress` on it neither raises (it is
total) nor changes anything: it returns the state unchanged and schedules
no broadcast. -/
theorem unknown_job_operations (jm : JobManager) (job_id : String)
    (status : JobStatus) (pct : Int) (step msg : String)
    (h1 : job_id ∉ akeys jm.jobs) (h2 : job_id ∉ akeys jm.results) :
    jm.get_job_progress job_id = none ∧ jm.get_job_result job_id = none ∧
    jm.update_progress job_id status pct step msg = (jm, none) := by
  have hj : alookup jm.jobs job_id = none := (alookup_eq_none _ _).2 h1
  have hr : alookup jm.results job_id = none := (alookup_eq_none _ _).2 h2
  exact ⟨hj, hr, by simp [JobManager.update_progress, hj]⟩

theorem unknown_job_operations_witness :
    (JobManager.init.create_job "b").get_job_progress "a" = none ∧
    (JobManager.init.create_job "b").get_job_result "a" = none ∧
    (JobManager.init.create_job "b").update_progress "a" .processing 50 "s" "m" =
      (JobManager.init.create_job "b", none) :=
  unknown_job_operations (JobManager.init.create_job "b") "a" .processing 50
    "s" "m" (by decide) (by decide)

/-! ## Claim C8: the HeyGen render band [35,95] -/

/-- C8: the render-stage progress callback maps its sub-stage's internal
percent into the overall [35,95] band via `35 + int(percent * 0.6)`:
internal values 0, 50 and 100 produce observed `progress_percent` values
35, 65 and 95 in the job's progress record. -/
theorem heygen_band_endpoints (jm : JobManager) (job_id msg : String)
    (rec : JobProgress) (h : alookup jm.jobs job_id = some rec) :
    (((heygen_progress_callback jm job_id 0 msg).1.get_job_progress
        job_id).map JobProgress.progress_percent = some 35) ∧
    (((heygen_progress_callback jm job_id 50 msg).1.get_job_progress
        job_id).map JobProgress.progress_percent = some 65) ∧
    (((heygen_progress_callback jm job_id 100 msg).1.get_job_progress
        job_id).map JobProgress.progress_percent = some 95) := by
  refine ⟨?_, ?_, ?_⟩ <;>
    simp [heygen_progress_callback, JobManager.update_progress, h,
      JobManager.get_job_progress, alookup_aupsert_self,
      heygen_mapped_percent]

theorem heygen_band_endpoints_witness :
    (((heygen_progress_callback (JobManager.init.create_job "a") "a" 0
        "m").1.get_job_progress "a").map JobProgress.progress_percent =
      some 35) ∧
    (((heygen_progress_callback (JobManager.init.create_job "a") "a" 50
        "m").1.get_job_progress "a").map JobProgress.progress_percent =
      some 65) ∧
    (((heygen_progress_callback (JobManager.init.create_job "a") "a" 100
        "m").1.get_job_progress "a").map JobProgress.progress_percent =
      some 95) :=
  heygen_band_endpoints (JobManager.init.create_job "a") "a" "m" _ rfl

/-! ## Claim C10: set_result branches on truthiness, not presence -/

/-- C10: `set_result` decides the terminal status by the truthiness of its
`error` argument: with `error = some ""` (present but empty) it takes the
success path, recording a result whose status is `completed` with the
empty string stored in its error field, and setting the job's
`progress_percent` to 100. -/
theorem set_result_empty_error_is_success (jm : JobManager)
    (job_id : String) (vu tu : Option String) (dur : Option ℚ)
    (sc : Option String) (rec : JobProgress)
    (h : alookup jm.jobs job_id = some rec) :
    (jm.set_result job_id vu tu dur sc (some "")).1.get_job_result job_id =
      some { job_id := job_id
             status := .completed
             video_url := vu
             thumbnail_url := tu
             duration := dur
             script := sc
             error := some "" } ∧
    ((jm.set_result job_id vu tu dur sc (some "")).1.get_job_progress
        job_id).map JobProgress.progress_percent = some 100 ∧
    ((jm.set_result job_id vu tu dur sc (some "")).1.get_job_progress
        job_id).map JobProgress.status = some JobStatus.completed := by
  have hF : errTruthy (some "") = false := by decide
  refine ⟨?_, ?_, ?_⟩ <;>
    simp [JobManager.set_result, JobManager.get_job_result,
      JobManager.get_job_progress, h, hF, alookup_aupsert_self]

theorem set_result_empty_error_is_success_witness :
    ((JobManager.init.create_job "a").set_result "a" (some "u") none none
        none (some "")).1.get_job_result "a" =
      some { job_id := "a"
             status := .completed
             video_url := some "u"
             thumbnail_url := none
             duration := none
             script := none
             error := some "" } ∧
    (((JobManager.init.create_job "a").set_result "a" (some "u") none none
        none (some "")).1.get_job_progress "a").map
      JobProgress.progress_percent = some 100 ∧
    (((JobManager.init.create_job "a").set_result "a" (some "u") none none
        none (some "")).1.get_job_progress "a").map JobProgress.status =
      some JobStatus.completed :=
  set_result_empty_error_is_success (JobManager.init.create_job "a") "a"
    (some "u") none none none _ rfl

/-! ## Claim C3: progress/result agreement at set_result -/

/-- C3 (counterexample): the claim reads the terminal branch off the
presence of an error argument. With the error argument present but equal
to `""`, `set_result` takes the success path: the result status is
`completed` (not `failed`) and the stored percent is 100 (not 0). -/
theorem set_result_agreement_counterexample :
    (((JobManager.init.create_job "a").set_result "a" none none none none
        (some "")).1.get_job_result "a").map VideoResult.status =
      some JobStatus.completed ∧
    (((JobManager.init.create_job "a").set_result "a" none none none none
        (some "")).1.get_job_progress "a").map JobProgress.progress_percent =
      some 100 ∧
    JobStatus.completed ≠ JobStatus.failed ∧ (100 : Int) ≠ 0 :=
  ⟨rfl, rfl, by decide, by decide⟩

/-- C3 (amended): after `set_result` on an existing job, progress and
result readers agree on the terminal state, with the branch decided by the
truthiness of the error argument: when the error argument is falsy (`None`
or `""`) the result status is `completed` and the stored
`progress_percent` is 100; when it is a non-empty string the result status
is `failed` and the stored `progress_percent` is 0. -/
theorem set_result_terminal_agreement (jm : JobManager) (job_id : String)
    (vu tu : Option String) (dur : Option ℚ) (sc err : Option String)
    (rec : JobProgress) (h : alookup jm.jobs job_id = some rec) :
    (errTruthy err = false →
      ((jm.set_result job_id vu tu dur sc err).1.get_job_result job_id).map
          VideoResult.status = some JobStatus.completed ∧
      ((jm.set_result job_id vu tu dur sc err).1.get_job_progress
          job_id).map JobProgress.progress_percent = some 100) ∧
    (errTruthy err = true →
      ((jm.set_result job_id vu tu dur sc err).1.get_job_result job_id).map
          VideoResult.status = some JobStatus.failed ∧
      ((jm.set_result job_id vu tu dur sc err).1.get_job_progress
          job_id).map JobProgress.progress_percent = some 0) := by
  constructor <;> intro hE <;> refine ⟨?_, ?_⟩ <;>
    simp [JobManager.set_result, JobManager.get_job_result,
      JobManager.get_job_progress, h, hE, alookup_aupsert_self]

theorem set_result_terminal_agreement_witness :
    (((JobManager.init.create_job "a").set_result "a" none none none none
        (some "boom")).1.get_job_result "a").map VideoResult.status =
      some JobStatus.failed ∧
    (((JobManager.init.create_job "a").set_result "a" none none none none
        (some "boom")).1.get_job_progress "a").map
      JobProgress.progress_percent = some 0 :=
  (set_result_terminal_agreement (JobManager.init.create_job "a") "a" none
    none none none (some "boom") _ rfl).2 (by decide)

/-! ## Claim C4: terminal statuses are not sticky in the store -/

/-- C4 (counterexample): a job whose status is the terminal `completed` is
moved to `processing` by a subsequent `update_progress` call — the status
field does leave a terminal state. -/
theorem terminal_status_counterexample :
    ((((JobManager.init.create_job "a").set_result "a" none none none none
        none).1).get_job_progress "a").map JobProgress.status =
      some JobStatus.completed ∧
    (((((JobManager.init.create_job "a").set_result "a" none none none none
        none).1).update_progress "a" JobStatus.processing 50 "s"
        "m").1.get_job_progress "a").map JobProgress.status =
      some JobStatus.processing ∧
    JobStatus.processing ≠ JobStatus.completed ∧
    JobStatus.processing ≠ JobStatus.failed :=
  ⟨rfl, rfl, by decide, by decide⟩

/-- C4 (amended): the progress store does not guard terminal states: for an
existing job whose status is `completed` or `failed`, a subsequent
`update_progress` still overwrites the status field with its argument,
whatever it is; terminality holds only by the discipline of the callers
(`run_job` issues no status change after its own terminal transition). -/
theorem terminal_status_not_enforced (jm : JobManager) (job_id : String)
    (status : JobStatus) (pct : Int) (step msg : String)
    (rec : JobProgress) (h : alookup jm.jobs job_id = some rec)
    (_hterm : rec.status = JobStatus.completed ∨
      rec.status = JobStatus.failed) :
    ((jm.update_progress job_id status pct step msg).1.get_job_progress
        job_id).map JobProgress.status = some status := by
  simp [JobManager.update_progress, h, JobManager.get_job_progress,
    alookup_aupsert_self]

theorem terminal_status_not_enforced_witness :
    ((((JobManager.init.create_job "a").set_result "a" none none none none
        none).1.update_progress "a" JobStatus.queued 10 "s"
        "m").1.get_job_progress "a").map JobProgress.status =
      some JobStatus.queued :=
  terminal_status_not_enforced _ "a" JobStatus.queued 10 "s" "m" _ rfl
    (Or.inl rfl)

/-! ## Claim C9: range of the stored progress_percent -/

/-- One call into the orchestrator's mutating interface
(`create_job` / `update_progress` / `set_result`). -/
inductive JMOp where
  | createJob (job_id : String)
  | updateProgress (job_id : String) (status : JobStatus) (pct : Int)
      (step : String) (msg : String)
  | setResult (job_id : String) (vu : Option String) (tu : Option String)
      (dur : Option ℚ) (sc : Option String) (err : Option String)
deriving DecidableEq

/-- Apply one call, discarding the scheduled broadcast. -/
def JobManager.applyOp (jm : JobManager) : JMOp → JobManager
  | .createJob j => jm.create_job j
  | .updateProgress j s p st m => (jm.update_progress j s p st m).1
  | .setResult j vu tu d sc e => (jm.set_result j vu tu d sc e).1

/-- Run a sequence of calls from a starting state. -/
def JobManager.runOps (jm : JobManager) (ops : List JMOp) : JobManager :=
  ops.foldl JobManager.applyOp jm

/-- Whether the caller-chosen percent of an `update_progress` call lies in
[0,100]; the other operations carry no caller-chosen percent. Nothing in
the code checks this: the Pydantic `Field(ge=0, le=100)` constraint only
applies at construction, and `update_progress` mutates by attribute
assignment, which is unvalidated. -/
def JMOp.percentInRange : JMOp → Bool
  | .updateProgress _ _ p _ _ => 0 ≤ p ∧ p ≤ 100
  | _ => true

/-- All stored progress records have their percent in [0,100]. -/
def percentInv (jm : JobManager) : Prop :=
  ∀ p ∈ jm.jobs, 0 ≤ (p : String × JobProgress).2.progress_percent ∧
    p.2.progress_percent ≤ 100

theorem percentInv_applyOp (jm : JobManager) (op : JMOp)
    (hinv : percentInv jm) (hop : op.percentInRange = true) :
    percentInv (jm.applyOp op) := by
  cases op with
  | createJob j =>
      intro p hp
      rcases mem_aupsert _ _ _ _ hp with h | h
      · subst h; norm_num
      · exact hinv p h
  | updateProgress j s pct st m =>
      have hr : 0 ≤ pct ∧ pct ≤ 100 := by
        simpa [JMOp.percentInRange] using hop
      intro p hp
      rcases hlook : alookup jm.jobs j with _ | rec
      · simp only [JobManager.applyOp, JobManager.update_progress,
          hlook] at hp
        exact hinv p hp
      · simp only [JobManager.applyOp, JobManager.update_progress,
          hlook] at hp
        rcases mem_aupsert _ _ _ _ hp with h | h
        · subst h; exact hr
        · exact hinv p h
  | setResult j vu tu d sc e =>
      intro p hp
      rcases hlook : alookup jm.jobs j with _ | rec
      · simp only [JobManager.applyOp, JobManager.set_result, hlook] at hp
        exact hinv p hp
      · simp only [JobManager.applyOp, JobManager.set_result, hlook] at hp
        rcases mem_aupsert _ _ _ _ hp with h | h
        · subst h
          cases he : errTruthy e <;> norm_num [he]
        · exact hinv p h

theorem percentInv_runOps (jm : JobManager) (ops : List JMOp)
    (hinv : percentInv jm)
    (hops : ∀ op ∈ ops, op.percentInRange = true) :
    percentInv (jm.runOps ops) := by
  induction ops generalizing jm with
  | nil => exact hinv
  | cons op t ih =>
      exact ih (jm.applyOp op)
        (percentInv_applyOp jm op hinv (hops op (by simp)))
        (fun o ho => hops o (List.mem_cons_of_mem _ ho))

/-- C9 (counterexample): starting from the fresh manager, the sequence
`create_job "a"` then `update_progress "a" processing 150 …` leaves a
stored `progress_percent` of 150, outside [0,100] — the store accepts any
integer the caller passes, because Pydantic only validates at
construction, not on attribute assignment. -/
theorem percent_range_counterexample :
    ((JobManager.init.runOps [JMOp.createJob "a",
        JMOp.updateProgress "a" JobStatus.processing 150 "s" "m"]
      ).get_job_progress "a").map JobProgress.progress_percent =
      some 150 ∧ ¬((150 : Int) ≤ 100) :=
  ⟨rfl, by decide⟩

/-- C9 (amended): provided every `update_progress` call in the sequence
passes a percent in [0,100], the progress_percent stored in every job's
progress record after any sequence of orchestrator operations
(`create_job`, `update_progress`, `set_result`) is an integer in [0,100]
(`create_job` initialises it to 0 and `set_result` writes 0 or 100). -/
theorem percent_in_range_of_ops (ops : List JMOp) (job_id : String)
    (rec : JobProgress)
    (hops : ∀ op ∈ ops, op.percentInRange = true)
    (h : (JobManager.init.runOps ops).get_job_progress job_id = some rec) :
    0 ≤ rec.progress_percent ∧ rec.progress_percent ≤ 100 := by
  have hinv : percentInv (JobManager.init.runOps ops) :=
    percentInv_runOps _ _ (by intro p hp; simp [JobManager.init] at hp) hops
  exact hinv (job_id, rec) (alookup_mem _ _ _ h)

theorem percent_in_range_of_ops_witness :
    (JobManager.init.runOps [JMOp.createJob "a",
        JMOp.updateProgress "a" JobStatus.processing 42 "s" "m"]
      ).get_job_progress "a" =
      some { job_id := "a"
             status := JobStatus.processing
             progress_percent := 42
             current_step := "s"
             message := "m"
             error := none } ∧
    (0 ≤ (42 : Int) ∧ (42 : Int) ≤ 100) :=
  ⟨rfl,
   percent_in_range_of_ops [JMOp.createJob "a",
       JMOp.updateProgress "a" JobStatus.processing 42 "s" "m"] "a"
     { job_id := "a"
       status := JobStatus.processing
       progress_percent := 42
       current_step := "s"
       message := "m"
       error := none }
     (by decide) rfl⟩

/-! ## Registry well-formedness and the disconnect lemmas -/

/-- The websocket appears nowhere in the registry: in no subscriber set and
not in the reverse map. -/
def ConnectionManager.absent (cm : ConnectionManager) (websocket : Conn) :
    Prop :=
  (∀ p ∈ cm.active_connections,
    websocket ∉ (p : String × List Conn).2) ∧
  alookup cm.connection_jobs websocket = none

/-- Well-formed registry: both dicts have unique keys (true of Python
dicts), subscriber sets are duplicate-free (true of Python sets), and
every subscriber of a job is mapped back to that job by `connection_jobs`
(maintained by `connect`/`disconnect`). -/
def ConnectionManager.WF (cm : ConnectionManager) : Prop :=
  (akeys cm.active_connections).Nodup ∧
  (akeys cm.connection_jobs).Nodup ∧
  (∀ p ∈ cm.active_connections, (p : String × List Conn).2.Nodup) ∧
  (∀ p ∈ cm.active_connections, ∀ c ∈ (p : String × List Conn).2,
    alookup cm.connection_jobs c = some p.1)

theorem mem_akeys_of_alookup {κ α : Type} [DecidableEq κ]
    (l : List (κ × α)) (k : κ) (v : α) (h : alookup l k = some v) :
    k ∈ akeys l := by
  by_contra hk
  rw [(alookup_eq_none l k).2 hk] at h
  cases h

theorem mem_aremove_imp {κ α : Type} [DecidableEq κ]
    (l : List (κ × α)) (k : κ) (p : κ × α) (h : p ∈ aremove l k) :
    p ∈ l ∧ p.1 ≠ k := by
  induction l with
  | nil => simp [aremove] at h
  | cons q t ih =>
      obtain ⟨a, b⟩ := q
      by_cases hq : a = k
      · simp only [aremove, if_pos hq] at h
        exact ⟨List.mem_cons_of_mem _ (ih h).1, (ih h).2⟩
      · simp only [aremove, if_neg hq] at h
        rcases List.mem_cons.mp h with h' | h'
        · exact ⟨by simp [h'], by simp [h', hq]⟩
        · exact ⟨List.mem_cons_of_mem _ (ih h').1, (ih h').2⟩

theorem mem_aupsert_nodup {κ α : Type} [DecidableEq κ]
    (l : List (κ × α)) (k : κ) (v : α) (p : κ × α)
    (hnd : (akeys l).Nodup) (h : p ∈ aupsert l k v) :
    p = (k, v) ∨ (p ∈ l ∧ p.1 ≠ k) := by
  induction l with
  | nil => simp [aupsert] at h; exact Or.inl h
  | cons q t ih =>
      obtain ⟨a, b⟩ := q
      have hnd' : (a :: akeys t).Nodup := hnd
      have hnd2 : (akeys t).Nodup := (List.nodup_cons.mp hnd').2
      by_cases hq : a = k
      · simp only [aupsert, if_pos hq] at h
        rcases List.mem_cons.mp h with h' | h'
        · exact Or.inl h'
        · refine Or.inr ⟨List.mem_cons_of_mem _ h', ?_⟩
          have hnotin : a ∉ akeys t := (List.nodup_cons.mp hnd').1
          intro hpk
          exact hnotin (by
            have : p.1 ∈ akeys t := List.mem_map_of_mem Prod.fst h'
            rwa [hpk, ← hq] at this)
      · simp only [aupsert, if_neg hq] at h
        rcases List.mem_cons.mp h with h' | h'
        · exact Or.inr ⟨by simp [h'], by simp [h', hq]⟩
        · rcases ih hnd2 h' with h'' | ⟨h1, h2⟩
          · exact Or.inl h''
          · exact Or.inr ⟨List.mem_cons_of_mem _ h1, h2⟩

/-- Disconnecting a websocket removes it from the registry entirely
(under well-formedness). -/
theorem disconnect_absent_self (cm : ConnectionManager) (ws : Conn)
    (hwf : cm.WF) : (cm.disconnect ws).absent ws := by
  obtain ⟨hnd1, hnd2, hset, hcon⟩ := hwf
  rcases hcw : alookup cm.connection_jobs ws with _ | j
  · simp only [ConnectionManager.disconnect, hcw]
    refine ⟨?_, hcw⟩
    intro p hp hin
    have h1 := hcon p hp ws hin
    rw [hcw] at h1
    cases h1
  · simp only [ConnectionManager.disconnect, hcw]
    refine ⟨?_, alookup_aremove_self _ _⟩
    rcases hac : alookup cm.active_connections j with _ | s
    · simp only [hac]
      intro p hp hin
      have h1 := hcon p hp ws hin
      rw [hcw] at h1
      have hj : p.1 = j := by injection h1 with h1; exact h1.symm
      have hmem : j ∈ akeys cm.active_connections := by
        rw [← hj]; exact List.mem_map_of_mem Prod.fst hp
      exact ((alookup_eq_none _ _).1 hac) hmem
    · by_cases hnil : s.filter (fun c => c ≠ ws) = []
      · simp only [hac, hnil, if_pos rfl]
        intro p hp hin
        obtain ⟨hpl, hpk⟩ := mem_aremove_imp _ _ _ hp
        have h1 := hcon p hpl ws hin
        rw [hcw] at h1
        exact hpk (by injection h1 with h1; exact h1.symm)
      · simp only [hac, if_neg hnil]
        intro p hp hin
        rcases mem_aupsert_nodup _ _ _ _ hnd1 hp with h | ⟨hpl, hpk⟩
        · rw [h] at hin
          simp at hin
        · have h1 := hcon p hpl ws hin
          rw [hcw] at h1
          exact hpk (by injection h1 with h1; exact h1.symm)

/-- Disconnecting never adds a websocket to the registry. -/
theorem disconnect_absent_mono (cm : ConnectionManager) (ws c : Conn)
    (h : cm.absent c) : (cm.disconnect ws).absent c := by
  obtain ⟨hact, hcj⟩ := h
  rcases hcw : alookup cm.connection_jobs ws with _ | j
  · simp only [ConnectionManager.disconnect, hcw]
    exact ⟨hact, hcj⟩
  · simp only [ConnectionManager.disconnect, hcw]
    constructor
    · rcases hac : alookup cm.active_connections j with _ | s
      · simp only [hac]
        exact hact
      · by_cases hnil : s.filter (fun c => c ≠ ws) = []
        · simp only [hac, hnil, if_pos rfl]
          intro p hp
          exact hact p (mem_aremove_imp _ _ _ hp).1
        · simp only [hac, if_neg hnil]
          intro p hp hin
          rcases mem_aupsert _ _ _ _ hp with h | h
          · rw [h] at hin
            have hins : c ∈ s := (List.mem_filter.mp hin).1
            exact hact (j, s) (alookup_mem _ _ _ hac) hins
          · exact hact p h hin
    · by_cases hcc : c = ws
      · rw [hcc]; exact alookup_aremove_self _ _
      · rw [alookup_aremove_ne _ _ _ hcc]; exact hcj

/-- Disconnecting preserves well-formedness. -/
theorem disconnect_wf (cm : ConnectionManager) (ws : Conn) (hwf : cm.WF) :
    (cm.disconnect ws).WF := by
  obtain ⟨hnd1, hnd2, hset, hcon⟩ := hwf
  rcases hcw : alookup cm.connection_jobs ws with _ | j
  · simp only [ConnectionManager.disconnect, hcw]
    exact ⟨hnd1, hnd2, hset, hcon⟩
  · simp only [ConnectionManager.disconnect, hcw]
    have hcjnd : (akeys (aremove cm.connection_jobs ws)).Nodup :=
      List.Nodup.sublist ((aremove_sublist _ _).map Prod.fst) hnd2
    rcases hac : alookup cm.active_connections j with _ | s
    · simp only [hac]
      refine ⟨hnd1, hcjnd, hset, ?_⟩
      intro p hp c hc
      have h1 := hcon p hp c hc
      by_cases hcc : c = ws
      · rw [hcc, hcw] at h1
        have hj : p.1 = j := by injection h1 with h1; exact h1.symm
        have hmem : j ∈ akeys cm.active_connections := by
          rw [← hj]; exact List.mem_map_of_mem Prod.fst hp
        exact absurd hmem ((alookup_eq_none _ _).1 hac)
      · rw [alookup_aremove_ne _ _ _ hcc]; exact h1
    · by_cases hnil : s.filter (fun c => c ≠ ws) = []
      · simp only [hac, hnil, if_pos rfl]
        refine ⟨List.Nodup.sublist ((aremove_sublist _ _).map Prod.fst) hnd1,
          hcjnd, ?_, ?_⟩
        · intro p hp
          exact hset p (mem_aremove_imp _ _ _ hp).1
        · intro p hp c hc
          obtain ⟨hpl, hpk⟩ := mem_aremove_imp _ _ _ hp
          have h1 := hcon p hpl c hc
          by_cases hcc : c = ws
          · rw [hcc, hcw] at h1
            exact absurd (by injection h1 with h1; exact h1.symm) hpk
          · rw [alookup_aremove_ne _ _ _ hcc]; exact h1
      · simp only [hac, if_neg hnil]
        have hjmem : j ∈ akeys cm.active_connections :=
          mem_akeys_of_alookup _ _ _ hac
        have hsmem : (j, s) ∈ cm.active_connections := alookup_mem _ _ _ hac
        refine ⟨?_, hcjnd, ?_, ?_⟩
        · rw [akeys_aupsert_of_mem _ _ _ hjmem]; exact hnd1
        · intro p hp
          rcases mem_aupsert _ _ _ _ hp with h | h
          · rw [h]
            exact (hset _ hsmem).filter _
          · exact hset p h
        · intro p hp c hc
          rcases mem_aupsert_nodup _ _ _ _ hnd1 hp with h | ⟨hpl, hpk⟩
          · rw [h] at hc ⊢
            have hcs : c ∈ s ∧ c ≠ ws := by
              have := List.mem_filter.mp hc
              exact ⟨this.1, by simpa using this.2⟩
            rw [alookup_aremove_ne _ _ _ hcs.2]
            exact hcon (j, s) hsmem c hcs.1
          · have h1 := hcon p hpl c hc
            by_cases hcc : c = ws
            · rw [hcc, hcw] at h1
              exact absurd (by injection h1 with h1; exact h1.symm) hpk
            · rw [alookup_aremove_ne _ _ _ hcc]; exact h1

theorem foldl_disconnect_absent_mono (l : List Conn)
    (cm : ConnectionManager) (c : Conn) (h : cm.absent c) :
    (l.foldl ConnectionManager.disconnect cm).absent c := by
  induction l generalizing cm with
  | nil => exact h
  | cons a t ih => exact ih _ (disconnect_absent_mono cm a c h)

theorem foldl_disconnect_absent (l : List Conn) (cm : ConnectionManager)
    (c : Conn) (hwf : cm.WF) (hc : c ∈ l) :
    (l.foldl ConnectionManager.disconnect cm).absent c := by
  induction l generalizing cm with
  | nil => cases hc
  | cons a t ih =>
      rcases List.mem_cons.mp hc with h | h
      · rw [h]
        exact foldl_disconnect_absent_mono t _ _
          (disconnect_absent_self cm a hwf)
      · exact ih (cm.disconnect a) (disconnect_wf cm a hwf) h

/-! ## Claim C5: broadcast fan-out of one update_progress call -/

/-- C5: for a job `job_id` with subscriber set `conns` in a well-formed
registry, the single broadcast scheduled by one `update_progress` call on
an existing job delivers exactly one message to each live observer of
`job_id` (one whose transport accepts the send) and zero messages to any
observer registered under a different job identifier. -/
theorem update_progress_broadcast_fanout (jm : JobManager) (job_id : String)
    (status : JobStatus) (pct : Int) (step msg : String)
    (sendOk : Conn → Bool) (rec : JobProgress) (conns : List Conn)
    (hrec : alookup jm.jobs job_id = some rec)
    (hwf : jm.connection_manager.WF)
    (hconns : alookup jm.connection_manager.active_connections job_id =
      some conns) :
    (jm.update_progress job_id status pct step msg).2 =
      some (job_id,
        WsMessage.progress job_id status.value pct step msg) ∧
    (∀ c ∈ conns, sendOk c = true →
      ((jm.connection_manager.broadcast_to_job job_id
          (WsMessage.progress job_id status.value pct step msg)
          sendOk).2).count c = 1) ∧
    (∀ c, ∀ j' : String,
      alookup jm.connection_manager.connection_jobs c = some j' →
      j' ≠ job_id →
      ((jm.connection_manager.broadcast_to_job job_id
          (WsMessage.progress job_id status.value pct step msg)
          sendOk).2).count c = 0) := by
  obtain ⟨hnd1, hnd2, hset, hcon⟩ := hwf
  have hsmem : (job_id, conns) ∈ jm.connection_manager.active_connections :=
    alookup_mem _ _ _ hconns
  have hlog : (jm.connection_manager.broadcast_to_job job_id
      (WsMessage.progress job_id status.value pct step msg) sendOk).2 =
      conns.filter (fun c => sendOk c) := by
    simp [ConnectionManager.broadcast_to_job, hconns]
  refine ⟨by simp [JobManager.update_progress, hrec], ?_, ?_⟩
  · intro c hc hok
    have hpc : (fun c => sendOk c) c = true := hok
    rw [hlog, List.count_filter hpc]
    exact List.count_eq_one_of_mem (hset _ hsmem) hc
  · intro c j' hcj hne
    have hnotin : c ∉ conns := by
      intro hin
      have h1 := hcon (job_id, conns) hsmem c hin
      have h2 : some j' = some job_id := hcj.symm.trans h1
      exact hne (Option.some.inj h2)
    rw [hlog]
    exact List.count_eq_zero_of_not_mem
      (fun hmem => hnotin (List.mem_filter.mp hmem).1)

/-- A concrete registry: websockets 1 and 2 watch job "a", websocket 3
watches job "b". -/
def cmW : ConnectionManager :=
  ⟨[("a", [1, 2]), ("b", [3])], [(1, "a"), (2, "a"), (3, "b")]⟩

/-- A concrete manager whose job "a" exists and whose registry is `cmW`. -/
def jmW : JobManager :=
  { JobManager.init.create_job "a" with connection_manager := cmW }

theorem update_progress_broadcast_fanout_witness :
    (jmW.update_progress "a" JobStatus.processing 40 "s" "m").2 =
      some ("a", WsMessage.progress "a" "processing" 40 "s" "m") ∧
    ((jmW.connection_manager.broadcast_to_job "a"
        (WsMessage.progress "a" "processing" 40 "s" "m")
        (fun _ => true)).2.count 1 = 1) ∧
    ((jmW.connection_manager.broadcast_to_job "a"
        (WsMessage.progress "a" "processing" 40 "s" "m")
        (fun _ => true)).2.count 3 = 0) := by
  have h := update_progress_broadcast_fanout jmW "a" JobStatus.processing
    40 "s" "m" (fun _ => true) _ [1, 2] rfl
    (by unfold ConnectionManager.WF; decide) rfl
  exact ⟨h.1, h.2.1 1 (by decide) rfl, h.2.2 3 "b" rfl (by decide)⟩

/-! ## Claim C6: failure isolation and cleanup during broadcast -/

/-- C6: during `broadcast_to_job` on a well-formed registry, a delivery
failure to one observer does not abort delivery to the others — every
subscriber whose transport accepts still receives the message — and every
observer whose delivery failed is disconnected: afterwards it is absent
from both subscriber maps. Broadcasting to a job with no subscriber entry
returns the state unchanged with no deliveries. -/
theorem broadcast_failure_isolation (cm : ConnectionManager)
    (job_id : String) (message : WsMessage) (sendOk : Conn → Bool)
    (conns : List Conn) (hwf : cm.WF)
    (hconns : alookup cm.active_connections job_id = some conns) :
    (∀ c ∈ conns, sendOk c = true →
      c ∈ (cm.broadcast_to_job job_id message sendOk).2) ∧
    (∀ c ∈ conns, sendOk c = false →
      (cm.broadcast_to_job job_id message sendOk).1.absent c) ∧
    (∀ j' : String, alookup cm.active_connections j' = none →
      cm.broadcast_to_job j' message sendOk = (cm, [])) := by
  refine ⟨?_, ?_, ?_⟩
  · intro c hc hok
    simp only [ConnectionManager.broadcast_to_job, hconns]
    exact List.mem_filter.mpr ⟨hc, hok⟩
  · intro c hc hbad
    simp only [ConnectionManager.broadcast_to_job, hconns]
    apply foldl_disconnect_absent _ _ _ hwf
    exact List.mem_filter.mpr ⟨hc, by simp [hbad]⟩
  · intro j' hj'
    simp [ConnectionManager.broadcast_to_job, hj']

theorem broadcast_failure_isolation_witness :
    1 ∈ (cmW.broadcast_to_job "a"
        (WsMessage.progress "a" "processing" 40 "s" "m")
        (fun c => c != 2)).2 ∧
    (cmW.broadcast_to_job "a"
        (WsMessage.progress "a" "processing" 40 "s" "m")
        (fun c => c != 2)).1.absent 2 ∧
    cmW.broadcast_to_job "c"
        (WsMessage.progress "a" "processing" 40 "s" "m")
        (fun c => c != 2) = (cmW, []) := by
  have h := broadcast_failure_isolation cmW "a"
    (WsMessage.progress "a" "processing" 40 "s" "m") (fun c => c != 2)
    [1, 2] (by unfold ConnectionManager.WF; decide) rfl
  exact ⟨h.1 1 (by decide) rfl, h.2.1 2 (by decide) rfl, h.2.2 "c" rfl⟩
